import Mathlib

/-!
Verification of the gospider crawl pipeline against its specification.

The development shallowly embeds the core of the repository: the report
model and its derivation operations, the output-type follow-up policy,
the per-category deduplication filters of the crawler, the error-hook
suppression guard, and the redirect-check policy of the HTTP client.
Helper routines of the repository that are not part of the provided
sources (the string-set filter, GetSubdomains, GetAWSS3, GetExtType and
the public-suffix lookup) are modelled from the specification text and
are marked as such in their doc comments.
-/

namespace Gospider

/-! ## Go string primitives, embedded structurally over character lists -/

/-- Embedding of Go strings.Contains via an executable infix test on the
character list: listIsInfix pat l decides whether pat occurs contiguously
inside l. -/
def listIsInfix (pat : List Char) : List Char → Bool
  | [] => pat.isEmpty
  | c :: rest => pat.isPrefixOf (c :: rest) || listIsInfix pat rest

/-- Embedding of Go strings.Contains s sub. -/
def goContains (s sub : String) : Bool := listIsInfix sub.data s.data

/-- Fuel-indexed scanner behind replaceAll; the fuel is the length of the
scanned list, which suffices because every step consumes at least one
character when the pattern is non-empty. -/
def replaceAllAux (pat rep : List Char) : Nat → List Char → List Char
  | _, [] => []
  | 0, l => l
  | fuel+1, c :: rest =>
    if pat.isPrefixOf (c :: rest) then
      rep ++ replaceAllAux pat rep fuel (List.drop pat.length (c :: rest))
    else c :: replaceAllAux pat rep fuel rest

/-- Embedding of Go strings.ReplaceAll s pat rep for non-empty patterns:
replaces every non-overlapping occurrence of pat in s by rep, scanning
left to right. -/
def replaceAll (s pat rep : String) : String :=
  ⟨replaceAllAux pat.data rep.data s.data.length s.data⟩

/-- Splits a character list at a separator character, keeping empty
fields, accumulating the current field in reverse. -/
def splitOnCharAux (sep : Char) : List Char → List Char → List String
  | cur, [] => [String.mk cur.reverse]
  | cur, c :: rest =>
    if c = sep then String.mk cur.reverse :: splitOnCharAux sep [] rest
    else splitOnCharAux sep (c :: cur) rest

/-- Splits a string at a separator character, keeping empty fields. -/
def splitOnChar (sep : Char) (s : String) : List String := splitOnCharAux sep [] s.data

/-- Extracts the maximal runs of characters satisfying p, dropping empty
runs; the first accumulator holds the current run in reverse. -/
def tokenizeAux (p : Char → Bool) : List Char → List Char → List String
  | cur, [] => if cur.isEmpty then [] else [String.mk cur.reverse]
  | cur, c :: rest =>
    if p c then tokenizeAux p (c :: cur) rest
    else if cur.isEmpty then tokenizeAux p [] rest
    else String.mk cur.reverse :: tokenizeAux p [] rest

/-- Splits a string into the maximal tokens of characters satisfying p. -/
def tokenize (p : Char → Bool) (s : String) : List String := tokenizeAux p [] s.data

/-- Suffix test on strings, via the executable list suffix test. -/
def endsWithStr (s pat : String) : Bool := List.isSuffixOf pat.data s.data

/-- Characters that may appear in a host name token. -/
def isHostChar (c : Char) : Bool := c.isAlphanum || c = '.' || c = '-'

/-- Removes later duplicates from a list of strings, keeping the first
occurrence of each; seen accumulates the strings already kept. -/
def dedupStringsAux (seen : List String) : List String → List String
  | [] => []
  | x :: rest =>
    if x ∈ seen then dedupStringsAux seen rest
    else x :: dedupStringsAux (x :: seen) rest

/-- Removes duplicates from a list of strings, keeping first occurrences. -/
def dedupStrings (l : List String) : List String := dedupStringsAux [] l

/-! ## Modelled external helpers -/

/-- True when the label consists only of decimal digits. -/
def isNumericLabel (s : String) : Bool := s ≠ "" && s.data.all Char.isDigit

/-- Modelled from the spec: publicsuffix.EffectiveTLDPlusOne computes the
registrable base domain of a host, the public-suffix-aware top-level
domain plus one label, and fails for a malformed host, a bare IP
literal, or an unrecognized suffix. The library itself is an external
collaborator not included under the provided sources; this model splits
the host at dots, rejects hosts with fewer than two labels, with an
empty label, or whose labels are all numeric, and otherwise returns the
last two labels. -/
def EffectiveTLDPlusOne (host : String) : Except String String :=
  let labels := splitOnChar '.' host
  if labels.length < 2 then .error ("publicsuffix: cannot derive eTLD+1 for " ++ host)
  else if labels.any (fun l => l = "") then .error ("publicsuffix: empty label in " ++ host)
  else if labels.all isNumericLabel then .error ("publicsuffix: host is an IP address " ++ host)
  else
    match labels.reverse with
    | tld :: sld :: _ => .ok (sld ++ "." ++ tld)
    | _ => .error ("publicsuffix: cannot derive eTLD+1 for " ++ host)

/-- Modelled from the spec: GetSubdomains scans a page body for
fully-qualified host names that are subdomains of the given base domain,
a case-insensitive textual scan accepting bare host tokens embedded in
arbitrary text, returning each distinct match. The source function is
not included under the provided sources. -/
def GetSubdomains (body topDomain : String) : List String :=
  let lowered := String.mk (body.data.map Char.toLower)
  dedupStrings ((tokenize isHostChar lowered).filter
    (fun t => t = topDomain || endsWithStr t ("." ++ topDomain)))

/-- Modelled from the spec: GetAWSS3 scans a page body for object-storage
endpoint patterns; modelled here by the virtual-hosted form, host tokens
ending in .s3.amazonaws.com. The source function is not included under
the provided sources. -/
def GetAWSS3 (body : String) : List String :=
  dedupStrings ((tokenize isHostChar body).filter
    (fun t => endsWithStr t ".s3.amazonaws.com"))

/-- Modelled from the spec: GetExtType returns the file extension of an
artifact URL, the final dot-suffix of the last path segment, ignoring
query and fragment. The source function is not included under the
provided sources. -/
def GetExtType (s : String) : String :=
  let noQuery := (splitOnChar '?' s).headD ""
  let noFrag := (splitOnChar '#' noQuery).headD ""
  let lastSeg := (splitOnChar '/' noFrag).getLastD ""
  let pieces := splitOnChar '.' lastSeg
  if pieces.length ≤ 1 then "" else "." ++ pieces.getLastD ""

/-! ## Report model, after the source file defining SpiderReport -/

/-- Category of a discovery record; in the source this is a string type. -/
abbrev OutputType := String

/-- Category value ref, a raw href reference. -/
def Ref : OutputType := "ref"

/-- Category value src, a script or data asset. -/
def Src : OutputType := "src"

/-- Category value upload-form. -/
def Upload : OutputType := "upload-form"

/-- Category value form. -/
def Form : OutputType := "form"

/-- Category value url, a fetched page. -/
def Url : OutputType := "url"

/-- Category value aws-s3, a cloud bucket. -/
def S3 : OutputType := "aws-s3"

/-- Category value domain, a derived subdomain. -/
def Domain : OutputType := "domain"

/-- Model of the part of Go url.URL the embedded code uses: its hostname. -/
structure URL where
  hostname : String
deriving DecidableEq, Repr

/-- The discovery record SpiderReport, with the fields of the source
structure; the Go error field is modelled as an optional message. -/
structure SpiderReport where
  Output : String
  OutputType : OutputType
  StatusCode : Int
  Source : String
  Body : String
  Err : Option String
  Input : URL
  Length : Int
deriving DecidableEq, Repr

/-! ## Output-type follow-up policy, after OutputType.KeepCrawling -/

/-- Embedding of OutputType.KeepCrawling: the per-category follow-up
policy. Ref returns the output itself; Src returns the output when its
file extension is .js, .xml or .json, additionally followed by the
output with every .min.js replaced by .js when the output contains
.min.js; every other category returns the empty list. -/
def OutputType.KeepCrawling (ot : OutputType) : SpiderReport → List String :=
  if ot = Ref then fun v => [v.Output]
  else if ot = Src then fun v =>
    let fileExt := GetExtType v.Output
    if fileExt = ".js" || fileExt = ".xml" || fileExt = ".json" then
      if goContains v.Output ".min.js" then
        [v.Output, replaceAll v.Output ".min.js" ".js"]
      else [v.Output]
    else []
  else fun _ => []

/-- Embedding of SpiderReport.KeepCrawling, dispatching on the category. -/
def SpiderReport.KeepCrawling (ov : SpiderReport) : List String :=
  OutputType.KeepCrawling ov.OutputType ov

/-! ## Derivation engine, after the SpiderReport derivation methods -/

/-- The wrapping error message built by SubdomainsDerivatedValues. -/
def subdomainsDerivationError (ov : SpiderReport) (e : String) : String :=
  "failed fetching subdomains derivated value for " ++ ov.OutputType ++ " "
    ++ ov.Output ++ ": " ++ e

/-- Embedding of SpiderReport.SubdomainsDerivatedValues: when the body is
non-empty, computes the registrable base domain of the origin host,
propagating its failure with an empty result, and otherwise clones the
receiver for each matched subdomain, replacing output and category;
fields left out of the Go composite literal take their zero values. -/
def SpiderReport.SubdomainsDerivatedValues (ov : SpiderReport) :
    List SpiderReport × Option String :=
  if ov.Body.length > 0 then
    match EffectiveTLDPlusOne ov.Input.hostname with
    | .error e => ([], some (subdomainsDerivationError ov e))
    | .ok topDomain =>
      ((GetSubdomains ov.Body topDomain).map fun fqdn =>
        { Output := fqdn, OutputType := Domain, Source := ov.Source,
          Body := ov.Body, StatusCode := ov.StatusCode, Input := ov.Input,
          Err := none, Length := 0 }, none)
  else ([], none)

/-- Embedding of SpiderReport.AwsS3DerivatedValues: when the body is
non-empty, clones the receiver for each matched bucket endpoint,
replacing output and category; fields left out of the Go composite
literal take their zero values. -/
def SpiderReport.AwsS3DerivatedValues (ov : SpiderReport) :
    List SpiderReport × Option String :=
  if ov.Body.length > 0 then
    ((GetAWSS3 ov.Body).map fun s3 =>
      { Output := s3, OutputType := S3, Source := ov.Source,
        Body := ov.Body, StatusCode := ov.StatusCode, Input := ov.Input,
        Err := none, Length := 0 }, none)
  else ([], none)

/-- Embedding of SpiderReport.DerivatedValues: runs subdomain derivation,
returning nil and the error on failure; otherwise runs bucket
derivation, returning the subdomain results and the error on failure;
otherwise returns the concatenation of both result lists. -/
def SpiderReport.DerivatedValues (ov : SpiderReport) :
    List SpiderReport × Option String :=
  match ov.SubdomainsDerivatedValues with
  | (_, some e) => ([], some e)
  | (subDomains, none) =>
    match ov.AwsS3DerivatedValues with
    | (_, some e) => (subDomains, some e)
    | (awsS3, none) => (subDomains ++ awsS3, none)

/-! ## Deduplication filter and per-category crawler filters -/

/-- Modelled from the spec: the Deduplication Filter operation
testAndInsert, atomic test-and-insert on a string set, returning true
when the key was already present and false when it was newly inserted,
together with the updated set. The source type stringset.StringFilter,
whose Duplicate method the crawler calls, is not included under the
provided sources. -/
def testAndInsert (k : String) (s : List String) : Bool × List String :=
  if k ∈ s then (true, s) else (false, k :: s)

/-- The deduplication state of one crawl session, after the filter fields
of the Crawler structure: one string filter per record category. -/
structure CrawlerFilters where
  urlSet : List String
  subSet : List String
  jsSet : List String
  formSet : List String
  awsSet : List String
deriving DecidableEq, Repr

/-- The filters of a fresh session, after NewCrawler, which initializes
five distinct empty filters. -/
def newCrawlerFilters : CrawlerFilters :=
  { urlSet := [], subSet := [], jsSet := [], formSet := [], awsSet := [] }

/-- The record categories whose hook handlers consult a dedup filter
before emitting. -/
inductive RecordCategory
  | url
  | form
  | script
  | subdomain
  | bucket
deriving DecidableEq, Repr

/-- Embedding of the dedup decision of each hook handler in the crawler:
the href handler tests urlSet, the form handler formSet, feedLinkfinder
jsSet, findSubdomains subSet and findAWSS3 awsSet; the returned Boolean
is true exactly when the handler emits output for the string. -/
def emitDecision : RecordCategory → String → CrawlerFilters → Bool × CrawlerFilters
  | .url, s, st =>
    let r := testAndInsert s st.urlSet
    (!r.1, { st with urlSet := r.2 })
  | .form, s, st =>
    let r := testAndInsert s st.formSet
    (!r.1, { st with formSet := r.2 })
  | .script, s, st =>
    let r := testAndInsert s st.jsSet
    (!r.1, { st with jsSet := r.2 })
  | .subdomain, s, st =>
    let r := testAndInsert s st.subSet
    (!r.1, { st with subSet := r.2 })
  | .bucket, s, st =>
    let r := testAndInsert s st.awsSet
    (!r.1, { st with awsSet := r.2 })

/-! ## Error-hook suppression guard, after the OnError callback -/

/-- Embedding of the guard of the OnError callback: true when the
callback returns early and produces no output, which happens for status
404, status 429, any status below 100, and any status of at least 500. -/
def onErrorSuppressed (statusCode : Int) : Bool :=
  statusCode = 404 || statusCode = 429 || statusCode < 100 || statusCode >= 500

/-- True when the OnError callback produces output for the given status. -/
def onErrorForwards (statusCode : Int) : Bool := !onErrorSuppressed statusCode

/-! ## Redirect policy, after WithHTTPNoRedirect -/

/-- Embedding of the CheckRedirect closure installed by
WithHTTPNoRedirect: the redirect is followed exactly when the Location
header of the previous response contains the hostname of the last
request of the chain as a substring; otherwise the client stops at the
last response. -/
def checkRedirectFollows (lastHostname nextLocation : String) : Bool :=
  goContains nextLocation lastHostname

/-- Drops characters up to and including the first occurrence of the
scheme separator in a URL character list. -/
def dropSchemeSep : List Char → List Char
  | [] => []
  | c :: rest =>
    if List.isPrefixOf [ ':', '/', '/'] (c :: rest) then List.drop 2 rest
    else dropSchemeSep rest

/-- Hostname extraction for an absolute URL string, used only to state
which host a redirect location points at: the text after the scheme
separator and before the first slash, colon, question mark or hash. -/
def urlHostname (s : String) : String :=
  let afterScheme :=
    if goContains s "://" then dropSchemeSep s.data else s.data
  String.mk (afterScheme.takeWhile
    (fun c => !(c = '/' || c = ':' || c = '?' || c = '#')))

/-! ## Helper lemmas -/

/-- Correctness of the executable infix scan: it decides contiguous
occurrence of the pattern. -/
theorem listIsInfix_iff (pat l : List Char) : listIsInfix pat l = true ↔ pat <:+: l := by
  induction l with
  | nil =>
    simp [listIsInfix, List.isEmpty_iff, List.infix_nil]
  | cons c rest ih =>
    rw [listIsInfix, Bool.or_eq_true, List.isPrefixOf_iff_prefix, ih, List.infix_cons_iff]

/-! ## Concrete reports used by counterexamples and witnesses -/

/-- A fetched-page report whose origin host is an IP literal, so that
subdomain derivation fails, and whose body holds a bucket endpoint. -/
def C1report : SpiderReport :=
  { Output := "http://127.0.0.1/", OutputType := Url, StatusCode := 200,
    Source := "body", Body := "see backup.s3.amazonaws.com here",
    Err := none, Input := { hostname := "127.0.0.1" }, Length := 0 }

/-- A script-asset report whose output is a minified JavaScript URL. -/
def C4report : SpiderReport :=
  { Output := "https://x.test/app.min.js", OutputType := Src, StatusCode := 200,
    Source := "body", Body := "", Err := none,
    Input := { hostname := "x.test" }, Length := 0 }

/-- A reference report used to instantiate the follow-up policy. -/
def C5report : SpiderReport :=
  { Output := "https://x.test/a", OutputType := Ref, StatusCode := 200,
    Source := "body", Body := "", Err := none,
    Input := { hostname := "x.test" }, Length := 0 }

/-- A fetched-page report with a non-zero Length whose body holds a
subdomain of its origin host. -/
def C6parent : SpiderReport :=
  { Output := "https://www.example.com/", OutputType := Url, StatusCode := 200,
    Source := "body", Body := "see old.example.com here", Err := none,
    Input := { hostname := "www.example.com" }, Length := 7 }

/-- The record that subdomain derivation produces from C6parent. -/
def C6derived : SpiderReport :=
  { Output := "old.example.com", OutputType := Domain, StatusCode := 200,
    Source := "body", Body := "see old.example.com here", Err := none,
    Input := { hostname := "www.example.com" }, Length := 0 }

/-- A report with an empty body and an IP-literal origin host. -/
def C9report : SpiderReport :=
  { Output := "http://127.0.0.1/", OutputType := Url, StatusCode := 200,
    Source := "body", Body := "", Err := none,
    Input := { hostname := "127.0.0.1" }, Length := 3 }

/-! ## Claim theorems -/

/-- Claim C1, counterexample: on this report subdomain derivation fails
and bucket derivation has a non-empty result, yet DerivatedValues
returns the empty list with the error instead of the bucket results, so
the partial results claimed by the specification are discarded. -/
theorem C1_counterexample :
    (C1report.SubdomainsDerivatedValues).2.isSome = true ∧
    (C1report.AwsS3DerivatedValues).1 ≠ [] ∧
    (C1report.DerivatedValues).1 = [] := by decide

/-- Claim C1, amended: when subdomain derivation fails, DerivatedValues
returns the empty list paired with the propagated error and does not
run bucket derivation; partial results survive only in the opposite
direction, when bucket derivation fails after subdomain derivation
succeeded. -/
theorem C1_amended_subdomain_failure (ov : SpiderReport)
    (h : (ov.SubdomainsDerivatedValues).2.isSome = true) :
    ov.DerivatedValues = ([], (ov.SubdomainsDerivatedValues).2) := by
  rcases hs : ov.SubdomainsDerivatedValues with ⟨l, e⟩
  cases e with
  | none => rw [hs] at h; simp at h
  | some msg => simp [SpiderReport.DerivatedValues, hs]

/-- Witness for the amended claim C1 at the concrete failing report. -/
theorem C1_amended_subdomain_failure_witness :
    C1report.DerivatedValues = ([], (C1report.SubdomainsDerivatedValues).2) :=
  C1_amended_subdomain_failure C1report (by decide)

/-- Claim C2, counterexample: the crawler keeps one filter per record
category, not a single shared one, so the same string emitted under the
url category and then under the form category of a fresh session is
emitted a second time. -/
theorem C2_counterexample :
    (emitDecision .url "https://a.test/x" newCrawlerFilters).1 = true ∧
    (emitDecision .form "https://a.test/x"
      (emitDecision .url "https://a.test/x" newCrawlerFilters).2).1 = true := by decide

/-- Claim C2, amended: the crawler of the provided sources keeps one
deduplication filter per record category; within one session each
distinct output string is emitted at most once per category: a repeated
emission of the same string under the same category is always refused,
whatever the prior filter state. -/
theorem C2_amended_per_category (cat : RecordCategory) (s : String)
    (st : CrawlerFilters) :
    (emitDecision cat s (emitDecision cat s st).2).1 = false := by
  cases cat <;> simp [emitDecision, testAndInsert] <;> split <;> simp_all

/-- Claim C3, counterexample: a fetch error with status 0 is suppressed
by the OnError guard although 0 is neither 404 nor 429 nor at least
500, so the claimed if-and-only-if characterization of the suppressed
set fails. -/
theorem C3_counterexample :
    onErrorForwards 0 = false ∧
    ¬((0 : Int) = 404 ∨ (0 : Int) = 429 ∨ (0 : Int) ≥ 500) := by decide

/-- Claim C3, amended: the suppressed set additionally contains every
status below 100; a fetch error produces output on the error path
exactly when its status is at least 100, below 500, and neither 404 nor
429. -/
theorem C3_amended_forwarding (s : Int) :
    onErrorForwards s = true ↔ (100 ≤ s ∧ s < 500 ∧ s ≠ 404 ∧ s ≠ 429) := by
  simp only [onErrorForwards, onErrorSuppressed, Bool.not_eq_true',
    Bool.or_eq_false_iff, decide_eq_false_iff_not, not_lt, not_le]
  omega

/-- Claim C4: for every record whose output has file extension .js, .xml
or .json, the Src follow-up policy returns a list beginning with the
output itself, and when the output contains .min.js the list is exactly
the output followed by the output with every .min.js replaced by .js. -/
theorem C4_src_followups (v : SpiderReport)
    (hext : GetExtType v.Output = ".js" ∨ GetExtType v.Output = ".xml" ∨
      GetExtType v.Output = ".json") :
    (∃ rest, OutputType.KeepCrawling Src v = v.Output :: rest) ∧
    (goContains v.Output ".min.js" = true →
      OutputType.KeepCrawling Src v =
        [v.Output, replaceAll v.Output ".min.js" ".js"]) := by
  have hguard : (GetExtType v.Output = ".js" || GetExtType v.Output = ".xml" ||
      GetExtType v.Output = ".json") = true := by
    rcases hext with h | h | h <;> simp [h]
  constructor
  · by_cases hmin : goContains v.Output ".min.js" = true
    · exact ⟨[replaceAll v.Output ".min.js" ".js"],
        by simp [OutputType.KeepCrawling, Src, Ref, hguard, hmin]⟩
    · exact ⟨[], by simp [OutputType.KeepCrawling, Src, Ref, hguard, hmin]⟩
  · intro hmin
    simp [OutputType.KeepCrawling, Src, Ref, hguard, hmin]

/-- Witness for claim C4 at the minified-JavaScript example output of
the specification. -/
theorem C4_src_followups_witness :
    OutputType.KeepCrawling Src C4report =
      ["https://x.test/app.min.js", "https://x.test/app.js"] := by
  rw [(C4_src_followups C4report (Or.inl (by decide))).2 (by decide)]
  decide

/-- Claim C5: the follow-up policy is total over the closed category set:
Reference returns exactly the one-element list holding the output, and
Form, UploadForm, FetchedPage, CloudBucket and Domain return the empty
list. -/
theorem C5_policy_total (v : SpiderReport) :
    OutputType.KeepCrawling Ref v = [v.Output] ∧
    (∀ ot : OutputType, ot ∈ ([Form, Upload, Url, S3, Domain] : List OutputType) →
      OutputType.KeepCrawling ot v = []) := by
  constructor
  · simp [OutputType.KeepCrawling]
  · intro ot hot
    fin_cases hot <;>
      simp [OutputType.KeepCrawling, Form, Upload, Url, S3, Domain, Ref, Src]

/-- Witness for claim C5 at a concrete reference record and the Form
category. -/
theorem C5_policy_total_witness :
    OutputType.KeepCrawling Ref C5report = [C5report.Output] ∧
    OutputType.KeepCrawling Form C5report = [] :=
  ⟨(C5_policy_total C5report).1, (C5_policy_total C5report).2 Form (by decide)⟩

/-- Claim C6, counterexample: a derived record does not differ from its
parent only in output and category; on this parent with Length 7, the
derived record has Length 0. -/
theorem C6_counterexample :
    (C6parent.SubdomainsDerivatedValues).1 ≠ [] ∧
    ((C6parent.SubdomainsDerivatedValues).1.all
      fun d => d.Length ≠ C6parent.Length) = true := by decide

/-- Claim C6, amended: every record produced by subdomain or bucket
derivation copies source, body, statusCode and origin from its parent,
sets the category to Domain or CloudBucket with the matched value as
output, and resets the remaining fields Err and Length to their zero
values. -/
theorem C6_derived_fields (ov d : SpiderReport) :
    (d ∈ (ov.SubdomainsDerivatedValues).1 →
      d.Source = ov.Source ∧ d.Body = ov.Body ∧ d.StatusCode = ov.StatusCode ∧
      d.Input = ov.Input ∧ d.OutputType = Domain ∧ d.Err = none ∧ d.Length = 0 ∧
      ∃ topDomain, EffectiveTLDPlusOne ov.Input.hostname = .ok topDomain ∧
        d.Output ∈ GetSubdomains ov.Body topDomain) ∧
    (d ∈ (ov.AwsS3DerivatedValues).1 →
      d.Source = ov.Source ∧ d.Body = ov.Body ∧ d.StatusCode = ov.StatusCode ∧
      d.Input = ov.Input ∧ d.OutputType = S3 ∧ d.Err = none ∧ d.Length = 0 ∧
      d.Output ∈ GetAWSS3 ov.Body) := by
  constructor
  · intro hd
    unfold SpiderReport.SubdomainsDerivatedValues at hd
    split at hd
    · split at hd
      · simp at hd
      · rename_i topDomain heq
        rw [List.mem_map] at hd
        obtain ⟨m, hm, rfl⟩ := hd
        exact ⟨rfl, rfl, rfl, rfl, rfl, rfl, rfl, topDomain, heq, hm⟩
    · simp at hd
  · intro hd
    unfold SpiderReport.AwsS3DerivatedValues at hd
    split at hd
    · rw [List.mem_map] at hd
      obtain ⟨m, hm, rfl⟩ := hd
      exact ⟨rfl, rfl, rfl, rfl, rfl, rfl, rfl, hm⟩
    · simp at hd

/-- Witness for the amended claim C6 at the concrete parent and its
derived subdomain record. -/
theorem C6_derived_fields_witness :
    C6derived.Source = C6parent.Source ∧ C6derived.Body = C6parent.Body ∧
    C6derived.StatusCode = C6parent.StatusCode ∧ C6derived.Input = C6parent.Input ∧
    C6derived.OutputType = Domain ∧ C6derived.Err = none ∧ C6derived.Length = 0 ∧
    ∃ topDomain, EffectiveTLDPlusOne C6parent.Input.hostname = .ok topDomain ∧
      C6derived.Output ∈ GetSubdomains C6parent.Body topDomain :=
  (C6_derived_fields C6parent C6derived).1 (by decide)

/-- Claim C7, counterexample: this redirect location is on host
evil.test, different from the request host a.test, yet the client
follows it because the location string contains a.test as a substring. -/
theorem C7_counterexample :
    urlHostname "https://evil.test/?u=a.test" = "evil.test" ∧
    urlHostname "https://evil.test/?u=a.test" ≠ "a.test" ∧
    checkRedirectFollows "a.test" "https://evil.test/?u=a.test" = true := by decide

/-- Claim C7, amended: the client follows a redirect exactly when the
Location header contains the hostname of the redirected request as a
substring: any location in which the hostname occurs verbatim, such as
an absolute same-host location, is followed, and any location not
containing the hostname, such as a same-host relative path, is refused. -/
theorem C7_redirect_contains (host loc : String) :
    (∀ pre post : String, loc = pre ++ host ++ post →
      checkRedirectFollows host loc = true) ∧
    (listIsInfix host.data loc.data = false →
      checkRedirectFollows host loc = false) := by
  constructor
  · rintro pre post rfl
    show listIsInfix host.data (pre ++ host ++ post).data = true
    rw [listIsInfix_iff]
    simp only [String.data_append]
    exact List.infix_append pre.data host.data post.data
  · intro h
    exact h

/-- Witness for the amended claim C7 at a followed same-host absolute
location and a refused relative location. -/
theorem C7_redirect_contains_witness :
    checkRedirectFollows "a.test" ("https://" ++ "a.test" ++ "/path") = true ∧
    checkRedirectFollows "a.test" "/login" = false :=
  ⟨(C7_redirect_contains "a.test" ("https://" ++ "a.test" ++ "/path")).1
      "https://" "/path" rfl,
    (C7_redirect_contains "a.test" "/login").2 (by decide)⟩

/-- Claim C8: feeding the same key twice through the filter from any
state not containing it yields newly-inserted on exactly one of the two
calls: the first call inserts the key and returns false, the second
returns true. -/
theorem C8_test_and_insert_once (st : List String) (k : String) (h : k ∉ st) :
    (testAndInsert k st).1 = false ∧
    (testAndInsert k (testAndInsert k st).2).1 = true := by
  simp [testAndInsert, h]

/-- Witness for claim C8 at a concrete key and the empty filter state. -/
theorem C8_test_and_insert_once_witness :
    (testAndInsert "https://a.test/" []).1 = false ∧
    (testAndInsert "https://a.test/"
      (testAndInsert "https://a.test/" ([] : List String)).2).1 = true :=
  C8_test_and_insert_once [] "https://a.test/" (by decide)

/-- Claim C9: for every report with an empty body, subdomain derivation,
bucket derivation and the combined operation all return the empty list
with no error; the origin host is never examined, so no resolution error
arises even for a malformed or IP-literal host. -/
theorem C9_empty_body (ov : SpiderReport) (h : ov.Body = "") :
    ov.SubdomainsDerivatedValues = ([], none) ∧
    ov.AwsS3DerivatedValues = ([], none) ∧
    ov.DerivatedValues = ([], none) := by
  have hlen : ¬ ov.Body.length > 0 := by rw [h]; decide
  refine ⟨?_, ?_, ?_⟩ <;>
    simp [SpiderReport.SubdomainsDerivatedValues, SpiderReport.AwsS3DerivatedValues,
      SpiderReport.DerivatedValues, hlen]

/-- Witness for claim C9 at a concrete empty-body report with an
IP-literal origin host. -/
theorem C9_empty_body_witness :
    C9report.SubdomainsDerivatedValues = ([], none) ∧
    C9report.AwsS3DerivatedValues = ([], none) ∧
    C9report.DerivatedValues = ([], none) :=
  C9_empty_body C9report rfl

/-- Claim C10: bucket derivation never fails, so every error returned by
the combined operation originates from subdomain derivation and the
error branch following bucket derivation inside DerivatedValues is
unreachable. -/
theorem C10_bucket_never_fails (ov : SpiderReport) :
    (ov.AwsS3DerivatedValues).2 = none ∧
    (ov.DerivatedValues).2 = (ov.SubdomainsDerivatedValues).2 := by
  have haws : (ov.AwsS3DerivatedValues).2 = none := by
    unfold SpiderReport.AwsS3DerivatedValues
    split <;> rfl
  refine ⟨haws, ?_⟩
  rcases hs : ov.SubdomainsDerivatedValues with ⟨l, e⟩
  cases e with
  | none =>
    rcases ha : ov.AwsS3DerivatedValues with ⟨l2, e2⟩
    cases e2 with
    | none => simp [SpiderReport.DerivatedValues, hs, ha]
    | some msg => rw [ha] at haws; simp at haws
  | some msg => simp [SpiderReport.DerivatedValues, hs]

end Gospider
